import Mathlib

/-!
# Verification of `inject-text.py`

A shallow embedding of the word-position injection script: it reads an SVG
viewBox, runs `pdftotext -bbox` on a PDF, scales each word bounding box from
PDF page coordinates into SVG viewBox coordinates, and splices a hidden
`<g id="search-data">` element carrying the JSON-serialized boxes into the
SVG text right at the closing `</svg>` tag.

Strings are modelled as `List Char`; real arithmetic as `ℚ` (the Python
code computes with binary floats; the spec's formulas are stated over exact
arithmetic, which `ℚ` realises).  Each Python string primitive the script
uses (`str.split`, `str.strip`, `str.replace`, `float`, `round(·, 1)`,
`re.search`/`re.sub` for the two concrete patterns, `html.escape`) is
modelled by an executable Lean function faithful to CPython semantics on
the pattern actually used.
-/

namespace InjectText

/-- The double-quote character (written via its code point to keep string
literals free of nested quotes). -/
def dq : Char := Char.ofNat 34

/-- The single-quote character. -/
def sq : Char := Char.ofNat 39

/-- The newline character. -/
def nl : Char := Char.ofNat 10

/-- Python whitespace for `\s`, `str.split()` and `str.strip()` (ASCII
range): space, tab, newline, carriage return, form feed, vertical tab. -/
def isPySpace (c : Char) : Bool :=
  c = Char.ofNat 32 || c = Char.ofNat 9 || c = Char.ofNat 10 ||
  c = Char.ofNat 13 || c = Char.ofNat 12 || c = Char.ofNat 11

/-- Python `str.strip()`: drop leading and trailing whitespace. -/
def pyStrip (l : List Char) : List Char :=
  ((l.dropWhile isPySpace).reverse.dropWhile isPySpace).reverse

/-- Helper for `pySplit`: scan the characters keeping the (reversed)
current token in `acc`, emitting it whenever whitespace or the end of the
input is reached. -/
def pySplitGo : List Char → List Char → List (List Char)
  | [], acc => if acc = [] then [] else [acc.reverse]
  | c :: cs, acc =>
      if isPySpace c then
        if acc = [] then pySplitGo cs [] else acc.reverse :: pySplitGo cs []
      else pySplitGo cs (c :: acc)

/-- Python `str.split()` with no separator: split on whitespace runs,
discarding empty pieces. -/
def pySplit (l : List Char) : List (List Char) := pySplitGo l []

/-- Numeric value of a digit run (most significant first). -/
def digitsVal (l : List Char) : Nat :=
  l.foldl (fun acc c => 10 * acc + (c.toNat - 48)) 0

/-- Is `c` an ASCII digit. -/
def isDigit (c : Char) : Bool := 48 ≤ c.toNat && c.toNat ≤ 57

/-- Parse the exponent part of a float literal: optional sign and a
nonempty digit run, which must consume the whole remainder. -/
def parseExp (l : List Char) : Option ℤ :=
  let (sgn, rest) :=
    match l with
    | c :: cs => if c = Char.ofNat 43 then ((1 : ℤ), cs)
                 else if c = Char.ofNat 45 then ((-1 : ℤ), cs)
                 else ((1 : ℤ), c :: cs)
    | [] => ((1 : ℤ), [])
  let ds := rest.takeWhile isDigit
  if ds = [] ∨ rest.dropWhile isDigit ≠ [] then none
  else some (sgn * (digitsVal ds : ℤ))

/-- Parse the unsigned body of a Python float literal:
`digits[.digits][e…]` or `.digits[e…]` (finite decimal forms; `inf`/`nan`
and digit-group underscores are not modelled — no claim depends on them). -/
def parseFloatBody (l : List Char) : Option ℚ :=
  let intPart := l.takeWhile isDigit
  let rest1 := l.dropWhile isDigit
  let (fracPart, rest2) :=
    match rest1 with
    | c :: cs => if c = Char.ofNat 46 then (cs.takeWhile isDigit, cs.dropWhile isDigit)
                 else ([], c :: cs)
    | [] => ([], [])
  if intPart = [] ∧ fracPart = [] then none
  else
    let mantissa : ℚ := (digitsVal (intPart ++ fracPart) : ℚ) / 10 ^ fracPart.length
    match rest2 with
    | [] => some mantissa
    | c :: cs =>
        if c = Char.ofNat 101 ∨ c = Char.ofNat 69 then
          match parseExp cs with
          | some e => some (mantissa * 10 ^ e)
          | none => none
        else none

/-- Python `float(s)`: strip whitespace, optional sign, then a float body. -/
def pyFloat (l : List Char) : Option ℚ :=
  match pyStrip l with
  | [] => none
  | c :: cs =>
      if c = Char.ofNat 43 then parseFloatBody cs
      else if c = Char.ofNat 45 then (parseFloatBody cs).map (fun q => -q)
      else parseFloatBody (c :: cs)

/-- Round to the nearest integer, ties to even — CPython's `round`. -/
def roundHalfEven (q : ℚ) : ℤ :=
  let n : ℤ := ⌊q⌋
  if q - n < 1 / 2 then n
  else if q - n > 1 / 2 then n + 1
  else if n % 2 = 0 then n else n + 1

/-- Python `round(x, 1)`: round to one decimal place (ties to even). -/
def pyRound1 (q : ℚ) : ℚ := (roundHalfEven (10 * q) : ℚ) / 10

/-- Does `pat` occur as a contiguous substring of `l`. -/
def containsSub (l pat : List Char) : Bool :=
  match l with
  | [] => pat.isEmpty
  | _ :: t => pat.isPrefixOf l || containsSub t pat

/-- Helper for `pyReplace`, structurally recursive on a fuel that the
wrapper sets to the input's length (each step consumes at least one
character, so the fuel suffices). -/
def pyReplaceGo (old new : List Char) : Nat → List Char → List Char
  | _, [] => []
  | 0, l => l
  | fuel + 1, c :: cs =>
      if old.isPrefixOf (c :: cs) then
        new ++ pyReplaceGo old new fuel (cs.drop (old.length - 1))
      else
        c :: pyReplaceGo old new fuel cs

/-- Python `s.replace(old, new)` for nonempty `old`: scan left to right,
replacing every (non-overlapping) occurrence. -/
def pyReplace (l old new : List Char) : List Char :=
  pyReplaceGo old new l.length l

/-- Number of positions of `l` at which `old` occurs (as a prefix of the
suffix starting there). -/
def occCount (l old : List Char) : Nat :=
  match l with
  | [] => 0
  | _ :: t => (if old.isPrefixOf l then 1 else 0) + occCount t old

/-- The literal `viewBox="`. -/
def viewBoxLit : List Char := ('v' :: 'i' :: 'e' :: 'w' :: 'B' :: 'o' :: 'x' :: '=' :: []) ++ [dq]

/-- Try to match the regex `viewBox="([^"]+)"` at the head of `l`,
returning the capture group: after the literal, one or more non-quote
characters up to a closing quote. -/
def matchViewBoxAt (l : List Char) : Option (List Char) :=
  if viewBoxLit.isPrefixOf l then
    let rest := l.drop viewBoxLit.length
    let g := rest.takeWhile (fun c => c ≠ dq)
    match rest.dropWhile (fun c => c ≠ dq) with
    | c :: _ => if g = [] then none else if c = dq then some g else none
    | [] => none
  else none

/-- Python `re.search(r'viewBox="([^"]+)"', s)`: the capture group of the
leftmost match, if any. -/
def findViewBox (l : List Char) : Option (List Char) :=
  match l with
  | [] => none
  | _ :: t =>
      match matchViewBoxAt l with
      | some g => some g
      | none => findViewBox t

/-- The literal `xmlns="`. -/
def xmlnsLit : List Char := ('x' :: 'm' :: 'l' :: 'n' :: 's' :: '=' :: []) ++ [dq]

/-- Try to match the regex `\s+xmlns="[^"]*"` at the head of `l`: one or
more whitespace characters (the maximal run — the following literal starts
with a non-whitespace character, so no shorter run can match), the literal
`xmlns="`, any run of non-quote characters, and a closing quote.  Returns
the remainder of the input after the match. -/
def matchXmlnsAt (l : List Char) : Option (List Char) :=
  match l with
  | [] => none
  | c :: _ =>
      if isPySpace c then
        let rest := l.dropWhile isPySpace
        if xmlnsLit.isPrefixOf rest then
          let rest2 := rest.drop xmlnsLit.length
          match rest2.dropWhile (fun a => a ≠ dq) with
          | d :: tail => if d = dq then some tail else none
          | [] => none
        else none
      else none

/-- Python `re.sub(r'\s+xmlns="[^"]*"', "", s, count=1)`: delete the
leftmost match of the pattern, if any, and leave the rest of the string
untouched (`count=1`: at most one deletion). -/
def stripXmlns (l : List Char) : List Char :=
  match l with
  | [] => []
  | c :: t =>
      match matchXmlnsAt l with
      | some rest => rest
      | none => c :: stripXmlns t

/-- A `<word>` node of the `pdftotext -bbox` output: its text content
(`w.text or ""` — a missing text is the empty list) and its four
coordinate attributes (`None` when the attribute is absent). -/
structure WordNode where
  text : List Char
  xMin : Option (List Char)
  yMin : Option (List Char)
  xMax : Option (List Char)
  yMax : Option (List Char)
deriving DecidableEq

/-- The `<page>` node: its `width`/`height` attributes and the `<word>`
descendants in document order. -/
structure PageData where
  width : Option (List Char)
  height : Option (List Char)
  words : List WordNode
deriving DecidableEq

/-- One entry of the injected `data-words` array: trimmed word text and
the box scaled into SVG coordinates, each coordinate rounded to one
decimal place. -/
structure WordBox where
  t : List Char
  x : ℚ
  y : ℚ
  w : ℚ
  h : ℚ
deriving DecidableEq

/-- The word loop of `main` (lines 55–70): for each `<word>` node, trim
its text and skip it when blank; otherwise read the four coordinate
attributes as floats, scale by `sx`/`sy`, and emit the rounded box.
Returns `none` when a needed attribute is absent or fails to parse as a
float (the script would raise an uncaught `TypeError`/`ValueError`). -/
def buildWords? (sx sy : ℚ) : List WordNode → Option (List WordBox)
  | [] => some []
  | n :: ns =>
      let text := pyStrip n.text
      if text = [] then buildWords? sx sy ns
      else
        match n.xMin.bind pyFloat, n.yMin.bind pyFloat,
              n.xMax.bind pyFloat, n.yMax.bind pyFloat with
        | some xm, some ym, some xM, some yM =>
            (buildWords? sx sy ns).map (fun rest =>
              ⟨text, pyRound1 (xm * sx), pyRound1 (ym * sy),
               pyRound1 (xM * sx - xm * sx), pyRound1 (yM * sy - ym * sy)⟩ :: rest)
        | _, _, _, _ => none

/-- The closing root tag `</svg>`. -/
def closeTag : List Char := '<' :: '/' :: 's' :: 'v' :: 'g' :: '>' :: []

/-- Opening text of the injected element, up to the `data-words='` value:
`<g id="search-data" display="none" data-words='`. -/
def injectPrefix : List Char :=
  "<g id=".toList ++ dq :: "search-data".toList ++ dq :: " display=".toList ++
  dq :: "none".toList ++ dq :: " data-words=".toList ++ [sq]

/-- Closing text of the injected element: `'></g>`. -/
def injectSuffix : List Char := sq :: "></g>".toList

/-- The whole injected element for a given (already escaped) attribute
payload. -/
def injectString (payload : List Char) : List Char :=
  injectPrefix ++ payload ++ injectSuffix

/-- Line 78 of the script:
`svg.replace("</svg>", f"{inject}\n</svg>")`. -/
def injectStep (svg payload : List Char) : List Char :=
  pyReplace svg closeTag (injectString payload ++ nl :: closeTag)

/-- `html.escape` (quote=True) of one character: `&`, `<`, `>`, the double
quote and the single quote become entities; everything else is kept. -/
def htmlEscapeChar (c : Char) : List Char :=
  if c = '&' then "&amp;".toList
  else if c = '<' then "&lt;".toList
  else if c = '>' then "&gt;".toList
  else if c = dq then "&quot;".toList
  else if c = sq then "&#x27;".toList
  else [c]

/-- Python `html.escape(s)` with the default `quote=True`. -/
def pyHtmlEscape : List Char → List Char
  | [] => []
  | c :: cs => htmlEscapeChar c ++ pyHtmlEscape cs

/-- Python `html.unescape`, restricted to the five entities `html.escape`
produces.  On any output of `html.escape` this agrees with the full
CPython `html.unescape` (which resolves each of these entities in a single
left-to-right pass and copies all other text through). -/
def pyHtmlUnescape (l : List Char) : List Char :=
  match l with
  | [] => []
  | c :: cs =>
      if "&amp;".toList.isPrefixOf (c :: cs) then '&' :: pyHtmlUnescape (cs.drop 4)
      else if "&lt;".toList.isPrefixOf (c :: cs) then '<' :: pyHtmlUnescape (cs.drop 3)
      else if "&gt;".toList.isPrefixOf (c :: cs) then '>' :: pyHtmlUnescape (cs.drop 3)
      else if "&quot;".toList.isPrefixOf (c :: cs) then dq :: pyHtmlUnescape (cs.drop 5)
      else if "&#x27;".toList.isPrefixOf (c :: cs) then sq :: pyHtmlUnescape (cs.drop 5)
      else c :: pyHtmlUnescape cs
termination_by l.length
decreasing_by all_goals simp only [List.length_cons, List.length_drop]; omega

/-- Decimal digits of a natural number. -/
def natDigits (n : Nat) : List Char :=
  if h : n < 10 then [Char.ofNat (48 + n)]
  else natDigits (n / 10) ++ [Char.ofNat (48 + n % 10)]
termination_by n
decreasing_by exact Nat.div_lt_self (by omega) (by omega)

/-- Rendering of a rational as `num/den` text.  The script prints Python
float `repr` digits here (a binary-floating-point artifact outside the
exact-arithmetic embedding); no claim inspects the rendered digits, only
the structure around them. -/
def ratRepr (q : ℚ) : List Char :=
  (if q.num < 0 then ['-'] else []) ++ natDigits q.num.natAbs ++ '/' :: natDigits q.den

/-- Compact textual rendering of one `WordBox`, standing in for one JSON
object of `json.dumps(words, separators=(",", ":"))` (JSON string escaping
and float `repr` are not re-modelled at the character level; the JSON
value denotation is `wordJson` below). -/
def serializeWord (b : WordBox) : List Char :=
  Char.ofNat 123 :: dq :: 't' :: dq :: ':' :: dq :: b.t ++ dq :: ',' ::
  dq :: 'x' :: dq :: ':' :: ratRepr b.x ++ ',' ::
  dq :: 'y' :: dq :: ':' :: ratRepr b.y ++ ',' ::
  dq :: 'w' :: dq :: ':' :: ratRepr b.w ++ ',' ::
  dq :: 'h' :: dq :: ':' :: ratRepr b.h ++ [Char.ofNat 125]

/-- Comma-joined renderings. -/
def serializeWordsBody : List WordBox → List Char
  | [] => []
  | [b] => serializeWord b
  | b :: bs => serializeWord b ++ ',' :: serializeWordsBody bs

/-- Textual rendering of the whole `data-words` array (see
`serializeWord` for what is abstracted). -/
def serializeWords (ws : List WordBox) : List Char :=
  '[' :: serializeWordsBody ws ++ [']']

/-- Result of reading the viewBox value (line 35–36):
`parts = m.group(1).split(); svg_w, svg_h = float(parts[2]), float(parts[3])`.
Python evaluates `float(parts[2])` fully before touching `parts[3]`, so a
missing index raises `IndexError` and a non-numeric token raises
`ValueError`, whichever comes first in that order. -/
inductive VpResult where
  | indexError
  | valueError
  | ok (w h : ℚ)
deriving DecidableEq

/-- Read width and height from the viewBox attribute value. -/
def readViewport (vb : List Char) : VpResult :=
  let parts := pySplit vb
  match parts[2]? with
  | none => .indexError
  | some p2 =>
      match pyFloat p2 with
      | none => .valueError
      | some wv =>
          match parts[3]? with
          | none => .indexError
          | some p3 =>
              match pyFloat p3 with
              | none => .valueError
              | some hv => .ok wv hv

/-- The inputs one run of the script observes: the command line
(`progName` is `sys.argv[0]`, `args` the positional arguments), the text
of the SVG file named by the first argument, the result of the
`pdftotext -bbox` subprocess (`.error` = non-zero exit or spawn failure,
which `check=True` turns into an uncaught exception), and an oracle for
`ET.fromstring(...).find(".//page")` applied to the subprocess output
after the namespace strip (`.error` = XML parse error, `.ok none` =
parsed but no `<page>` node). -/
structure Env where
  progName : String
  args : List String
  svgContent : List Char
  extraction : Except Unit (List Char)
  xmlParse : List Char → Except Unit (Option PageData)

/-- Observable result of one run. -/
inductive Outcome where
  | usage (msg : List Char)
  | errExit (msg : List Char)
  | toolFail
  | uncaughtIndex
  | uncaughtOther
  | ok (content : List Char)
deriving DecidableEq

/-- The usage line printed on argument-count mismatch. -/
def usageMsg (p : String) : List Char :=
  ("Usage: " ++ p ++ " <input.svg> <input.pdf> <output.svg>").toList

/-- Diagnostic for a missing viewBox. -/
def noViewBoxMsg : List Char := "ERROR: No viewBox in SVG".toList

/-- Diagnostic for a missing page node. -/
def noPageMsg : List Char := "ERROR: No <page> in pdftotext output".toList

/-- The `main` function of the script, stage by stage: argument check,
viewBox read, subprocess, namespace strip, page lookup, page dimensions,
word loop, injection, output write. -/
def runMain (e : Env) : Outcome :=
  if 1 + e.args.length ≠ 4 then .usage (usageMsg e.progName)
  else
    match findViewBox e.svgContent with
    | none => .errExit noViewBoxMsg
    | some vb =>
        match readViewport vb with
        | .indexError => .uncaughtIndex
        | .valueError => .uncaughtOther
        | .ok svg_w svg_h =>
            match e.extraction with
            | .error _ => .toolFail
            | .ok outTxt =>
                match e.xmlParse (stripXmlns outTxt) with
                | .error _ => .uncaughtOther
                | .ok none => .errExit noPageMsg
                | .ok (some page) =>
                    match page.width.bind pyFloat, page.height.bind pyFloat with
                    | some pdf_w, some pdf_h =>
                        if pdf_w = 0 ∨ pdf_h = 0 then .uncaughtOther
                        else
                          match buildWords? (svg_w / pdf_w) (svg_h / pdf_h) page.words with
                          | none => .uncaughtOther
                          | some words =>
                              .ok (injectStep e.svgContent
                                    (pyHtmlEscape (serializeWords words)))
                    | _, _ => .uncaughtOther

/-- The process exit code of an outcome (an uncaught Python exception
also terminates the interpreter with exit code 1). -/
def exitCode : Outcome → Nat
  | .ok _ => 0
  | _ => 1

/-- The content written to the output file, if any: only the success path
reaches the final `open(out_path, "w")`. -/
def writesOutput : Outcome → Option (List Char)
  | .ok c => some c
  | _ => none

/-- What the run printed to the error stream (the usage line goes to
stdout; uncaught exceptions print tracebacks, not modelled). -/
def stderrOf : Outcome → Option (List Char)
  | .errExit m => some m
  | _ => none

/-- JSON values, for the denotation of the serialized `data-words`
array. -/
inductive JVal where
  | jstr : List Char → JVal
  | jnum : ℚ → JVal
  | jarr : List JVal → JVal
  | jobj : List (List Char × JVal) → JVal

/-- The JSON object one `WordBox` dictionary serializes to (Python dicts
keep insertion order, and `json.dumps` keeps it): parsing the object's
text back as JSON yields exactly this value (numbers read back as the
rationals the script rounded to — one decimal place digits). -/
def wordJson (b : WordBox) : JVal :=
  .jobj [(['t'], .jstr b.t), (['x'], .jnum b.x), (['y'], .jnum b.y),
         (['w'], .jnum b.w), (['h'], .jnum b.h)]

/-- The JSON array the whole `words` list serializes to. -/
def wordsJson (ws : List WordBox) : JVal := .jarr (ws.map wordJson)

/-- The shape the claim describes: an object with exactly the five keys
`t,x,y,w,h` in that order, `t` a string and the other four numbers. -/
def isWordValue : JVal → Bool
  | .jobj entries =>
      match entries with
      | [(k1, .jstr _), (k2, .jnum _), (k3, .jnum _), (k4, .jnum _), (k5, .jnum _)] =>
          k1 == ['t'] && k2 == ['x'] && k3 == ['y'] && k4 == ['w'] && k5 == ['h']
      | _ => false
  | _ => false

/-- The output the round-trip claim describes, following the spec's
words: the input with `ins` inserted immediately before the *first*
occurrence of the closing root tag (unchanged when there is none). -/
def insertBeforeFirstCloseTag (svg ins : List Char) : List Char :=
  match svg with
  | [] => []
  | c :: cs =>
      if closeTag.isPrefixOf (c :: cs) then ins ++ c :: cs
      else c :: insertBeforeFirstCloseTag cs ins

/-- Membership in the language of the regex `\s+xmlns="[^"]*"`: a
nonempty whitespace run, the literal `xmlns="`, a run of non-quote
characters, and a closing quote. -/
def IsXmlnsMatch (m : List Char) : Prop :=
  ∃ wsp gap, wsp ≠ [] ∧ (∀ c ∈ wsp, isPySpace c = true) ∧
    (∀ c ∈ gap, c ≠ dq) ∧ m = wsp ++ xmlnsLit ++ gap ++ [dq]

/-! ## Concrete inputs for scenarios, witnesses and counterexamples -/

/-- The word node of the scenario: text `Hello`, box (10, 20, 60, 40). -/
def helloNode : WordNode :=
  ⟨"Hello".toList, some "10".toList, some "20".toList,
   some "60".toList, some "40".toList⟩

/-- The scenario's expected output box. -/
def helloBox : WordBox := ⟨"Hello".toList, 20, 40, 100, 40⟩

/-- A word node whose text is whitespace only (a space and a tab), with no
coordinate attributes: the loop must skip it before touching them. -/
def blankNode : WordNode := ⟨Char.ofNat 32 :: [Char.ofNat 9], none, none, none, none⟩

/-- A page of width 300 and height 400 holding the scenario word and a
blank word. -/
def pageHello : PageData :=
  ⟨some "300".toList, some "400".toList, [helloNode, blankNode]⟩

/-- An SVG opening tag with `viewBox="0 0 600 800"`. -/
def svgViewBox : List Char :=
  "<svg viewBox=".toList ++ dq :: "0 0 600 800".toList ++ dq :: ">".toList

/-- An SVG with one closing tag. -/
def svgOneClose : List Char := svgViewBox ++ "<r/>".toList ++ closeTag

/-- An SVG text with two occurrences of the closing tag. -/
def svgTwoClose : List Char := svgViewBox ++ closeTag ++ "tail".toList ++ closeTag

/-- An SVG with no viewBox attribute. -/
def svgNoViewBox : List Char := "<svg>".toList ++ closeTag

/-- An SVG with a viewBox but no closing tag at all. -/
def svgNoClose : List Char := svgViewBox ++ "<r/>".toList

/-- An SVG whose viewBox value has only two tokens. -/
def svgShortViewBox : List Char :=
  "<svg viewBox=".toList ++ dq :: "0 0".toList ++ dq :: ">".toList ++ closeTag

/-- An SVG whose viewBox value has three tokens, the third not numeric. -/
def svgBadTokenViewBox : List Char :=
  "<svg viewBox=".toList ++ dq :: "0 0 zz".toList ++ dq :: ">".toList ++ closeTag

/-- A run on `svgNoClose` where everything else succeeds. -/
def envOk : Env :=
  ⟨"inject-text.py", ["in.svg", "in.pdf", "out.svg"], svgNoClose,
   .ok "x".toList, fun _ => .ok (some pageHello)⟩

/-- A run whose SVG has no viewBox. -/
def envNoViewBox : Env :=
  ⟨"inject-text.py", ["in.svg", "in.pdf", "out.svg"], svgNoViewBox,
   .ok "x".toList, fun _ => .error ()⟩

/-- A run with a single positional argument. -/
def envUsage : Env :=
  ⟨"inject-text.py", ["only.svg"], svgNoClose, .ok "x".toList, fun _ => .error ()⟩

/-- A run whose viewBox value has too few tokens. -/
def envShortViewBox : Env :=
  ⟨"inject-text.py", ["in.svg", "in.pdf", "out.svg"], svgShortViewBox,
   .ok "x".toList, fun _ => .error ()⟩

/-- A run whose viewBox value has three tokens, the third non-numeric. -/
def envBadTokenViewBox : Env :=
  ⟨"inject-text.py", ["in.svg", "in.pdf", "out.svg"], svgBadTokenViewBox,
   .ok "x".toList, fun _ => .error ()⟩

/-- Extraction output with default-namespace declarations on two
elements. -/
def xmlTwoDecls : List Char :=
  "<r".toList ++ ' ' :: (xmlnsLit ++ 'a' :: dq :: "><s".toList) ++
  ' ' :: (xmlnsLit ++ 'b' :: dq :: "/></r>".toList)

/-- The second declaration, ` xmlns="b"`, in full. -/
def xmlnsDeclB : List Char := ' ' :: xmlnsLit ++ 'b' :: [dq]

/-! ## Helper lemmas -/

theorem unescape_amp (rest : List Char) :
    pyHtmlUnescape ('&' :: 'a' :: 'm' :: 'p' :: ';' :: rest) =
      '&' :: pyHtmlUnescape rest := by
  rw [pyHtmlUnescape]
  simp [List.isPrefixOf]

theorem unescape_lt (rest : List Char) :
    pyHtmlUnescape ('&' :: 'l' :: 't' :: ';' :: rest) =
      '<' :: pyHtmlUnescape rest := by
  rw [pyHtmlUnescape]
  simp [List.isPrefixOf]

theorem unescape_gt (rest : List Char) :
    pyHtmlUnescape ('&' :: 'g' :: 't' :: ';' :: rest) =
      '>' :: pyHtmlUnescape rest := by
  rw [pyHtmlUnescape]
  simp [List.isPrefixOf]

theorem unescape_quot (rest : List Char) :
    pyHtmlUnescape ('&' :: 'q' :: 'u' :: 'o' :: 't' :: ';' :: rest) =
      dq :: pyHtmlUnescape rest := by
  rw [pyHtmlUnescape]
  simp [List.isPrefixOf, dq]

theorem unescape_apos (rest : List Char) :
    pyHtmlUnescape ('&' :: '#' :: 'x' :: '2' :: '7' :: ';' :: rest) =
      sq :: pyHtmlUnescape rest := by
  rw [pyHtmlUnescape]
  simp [List.isPrefixOf, sq]

theorem unescape_cons_of_ne (c : Char) (rest : List Char) (h : c ≠ '&') :
    pyHtmlUnescape (c :: rest) = c :: pyHtmlUnescape rest := by
  rw [pyHtmlUnescape]
  have h5 : ∀ cs : List Char, ('&' :: cs).isPrefixOf (c :: rest) = false := by
    intro cs
    simp [List.isPrefixOf, Ne.symm h]
  simp [show ("&amp;".toList = '&' :: "amp;".toList) from rfl,
        show ("&lt;".toList = '&' :: "lt;".toList) from rfl,
        show ("&gt;".toList = '&' :: "gt;".toList) from rfl,
        show ("&quot;".toList = '&' :: "quot;".toList) from rfl,
        show ("&#x27;".toList = '&' :: "#x27;".toList) from rfl, h5]

/-- Unescaping an escaped string restores it exactly. -/
theorem unescape_escape (l : List Char) : pyHtmlUnescape (pyHtmlEscape l) = l := by
  induction l with
  | nil => simp [pyHtmlEscape, pyHtmlUnescape]
  | cons c cs ih =>
      show pyHtmlUnescape (htmlEscapeChar c ++ pyHtmlEscape cs) = c :: cs
      by_cases h1 : c = '&'
      · subst h1
        simpa [htmlEscapeChar, unescape_amp] using congrArg (List.cons '&') ih
      · by_cases h2 : c = '<'
        · subst h2
          rw [show (htmlEscapeChar '<' ++ pyHtmlEscape cs =
                '&' :: 'l' :: 't' :: ';' :: pyHtmlEscape cs) from rfl]
          rw [unescape_lt, ih]
        · by_cases h3 : c = '>'
          · subst h3
            rw [show (htmlEscapeChar '>' ++ pyHtmlEscape cs =
                  '&' :: 'g' :: 't' :: ';' :: pyHtmlEscape cs) from rfl]
            rw [unescape_gt, ih]
          · by_cases h4 : c = dq
            · subst h4
              rw [show (htmlEscapeChar dq ++ pyHtmlEscape cs =
                    '&' :: 'q' :: 'u' :: 'o' :: 't' :: ';' :: pyHtmlEscape cs) by
                  simp [htmlEscapeChar, dq]]
              rw [unescape_quot, ih]
            · by_cases h5 : c = sq
              · subst h5
                rw [show (htmlEscapeChar sq ++ pyHtmlEscape cs =
                      '&' :: '#' :: 'x' :: '2' :: '7' :: ';' :: pyHtmlEscape cs) by
                    rw [show htmlEscapeChar sq = '&' :: '#' :: 'x' :: '2' :: '7' :: ';' :: [] by
                      simp [htmlEscapeChar, sq, dq]]
                    rfl]
                rw [unescape_apos, ih]
              · rw [show (htmlEscapeChar c ++ pyHtmlEscape cs = c :: pyHtmlEscape cs) by
                    simp [htmlEscapeChar, h1, h2, h3, h4, h5]]
                rw [unescape_cons_of_ne c _ h1, ih]

theorem occCount_cons (c : Char) (cs old : List Char) :
    occCount (c :: cs) old =
      (if old.isPrefixOf (c :: cs) then 1 else 0) + occCount cs old := rfl

theorem pyReplaceGo_nil (old new : List Char) (fuel : Nat) :
    pyReplaceGo old new fuel [] = [] := by
  cases fuel <;> rfl

theorem pyReplaceGo_succ (old new : List Char) (fuel : Nat) (c : Char) (cs : List Char) :
    pyReplaceGo old new (fuel + 1) (c :: cs) =
      if old.isPrefixOf (c :: cs) then
        new ++ pyReplaceGo old new fuel (cs.drop (old.length - 1))
      else
        c :: pyReplaceGo old new fuel cs := rfl

theorem pyReplaceGo_of_occCount_zero (old new : List Char) :
    ∀ (fuel : Nat) (l : List Char), l.length ≤ fuel → occCount l old = 0 →
      pyReplaceGo old new fuel l = l := by
  intro fuel
  induction fuel with
  | zero =>
      intro l hl _
      cases l with
      | nil => rfl
      | cons c cs => simp at hl
  | succ fuel ih =>
      intro l hl h
      cases l with
      | nil => rfl
      | cons c cs =>
          rw [occCount_cons] at h
          by_cases hp : old.isPrefixOf (c :: cs)
          · simp [hp] at h
          · rw [if_neg hp] at h
            rw [pyReplaceGo_succ, if_neg hp,
                ih cs (by simp at hl; omega) (by omega)]

theorem pyReplace_of_occCount_zero (old new l : List Char)
    (h : occCount l old = 0) : pyReplace l old new = l :=
  pyReplaceGo_of_occCount_zero old new l.length l le_rfl h

theorem occCount_drop_le (old : List Char) :
    ∀ (l : List Char) (k : Nat), occCount (l.drop k) old ≤ occCount l old := by
  intro l
  induction l with
  | nil => intro k; simp
  | cons c cs ih =>
      intro k
      match k with
      | 0 => simp
      | k + 1 =>
          rw [List.drop_succ_cons, occCount_cons]
          have := ih k
          split <;> omega

theorem pyReplaceGo_of_occCount_one (old new : List Char) (hne : old ≠ []) :
    ∀ (fuel : Nat) (l : List Char), l.length ≤ fuel → occCount l old = 1 →
      ∃ a b, l = a ++ old ++ b ∧ pyReplaceGo old new fuel l = a ++ new ++ b := by
  intro fuel
  induction fuel with
  | zero =>
      intro l hl hone
      cases l with
      | nil => simp [occCount] at hone
      | cons c cs => simp at hl
  | succ fuel ih =>
      intro l hl hone
      cases l with
      | nil => simp [occCount] at hone
      | cons c cs =>
          rw [occCount_cons] at hone
          by_cases hp : old.isPrefixOf (c :: cs)
          · have hpre : old <+: (c :: cs) := List.isPrefixOf_iff_prefix.mp hp
            obtain ⟨t, ht⟩ := hpre
            have hcs0 : occCount cs old = 0 := by simp [hp] at hone; omega
            have htdrop : t = cs.drop (old.length - 1) := by
              have h1 : t = (c :: cs).drop old.length := by
                rw [← ht]; simp
              obtain ⟨o, os, rfl⟩ : ∃ o os, old = o :: os := by
                cases old with
                | nil => exact absurd rfl hne
                | cons o os => exact ⟨o, os, rfl⟩
              simpa using h1
            have ht0 : occCount t old = 0 := by
              rw [htdrop]
              have := occCount_drop_le old cs (old.length - 1)
              omega
            have htlen : t.length ≤ fuel := by
              rw [htdrop]
              have := List.length_drop (old.length - 1) cs
              simp at hl
              omega
            refine ⟨[], t, by simpa using ht.symm, ?_⟩
            rw [pyReplaceGo_succ, if_pos hp, ← htdrop,
                pyReplaceGo_of_occCount_zero old new fuel t htlen ht0]
            simp
          · rw [if_neg hp] at hone
            obtain ⟨a, b, hab, hrep⟩ := ih cs (by simp at hl; omega) (by omega)
            refine ⟨c :: a, b, by simp [hab], ?_⟩
            rw [pyReplaceGo_succ, if_neg hp, hrep]
            simp

theorem pyReplace_of_occCount_one (old new l : List Char)
    (hne : old ≠ []) (hone : occCount l old = 1) :
    ∃ a b, l = a ++ old ++ b ∧ pyReplace l old new = a ++ new ++ b :=
  pyReplaceGo_of_occCount_one old new hne l.length l le_rfl hone

theorem dropWhile_append_all {p : Char → Bool} (l t : List Char)
    (h : ∀ c ∈ l, p c = true) : (l ++ t).dropWhile p = t.dropWhile p := by
  induction l with
  | nil => rfl
  | cons a l ih =>
      rw [List.cons_append, List.dropWhile_cons, if_pos (h a (List.mem_cons_self a l))]
      exact ih (fun c hc => h c (List.mem_cons_of_mem a hc))

/-- The scanner accepts every string in the regex's language (placed at
the head of the input), returning exactly the remainder: `\s+` must end
where the literal's `x` begins, and `[^"]*` must end at the first quote,
so the match at a position is unique and the scanner finds it. -/
theorem matchXmlnsAt_complete (m rest : List Char) (hm : IsXmlnsMatch m) :
    matchXmlnsAt (m ++ rest) = some rest := by
  obtain ⟨wsp, gap, hne, hws, hgap, rfl⟩ := hm
  obtain ⟨w, wsp', rfl⟩ : ∃ w wsp', wsp = w :: wsp' := by
    cases wsp with
    | nil => exact absurd rfl hne
    | cons w wsp' => exact ⟨w, wsp', rfl⟩
  have hw : isPySpace w = true := hws w (List.mem_cons_self w wsp')
  have hshape : (w :: wsp' ++ xmlnsLit ++ gap ++ [dq]) ++ rest =
      w :: (wsp' ++ (xmlnsLit ++ (gap ++ dq :: rest))) := by simp
  rw [hshape, matchXmlnsAt, if_pos hw]
  have hstop : ∀ Y : List Char,
      List.dropWhile isPySpace (xmlnsLit ++ Y) = xmlnsLit ++ Y := by
    intro Y
    show List.dropWhile isPySpace
        ('x' :: (('m' :: 'l' :: 'n' :: 's' :: '=' :: dq :: []) ++ Y)) =
      'x' :: (('m' :: 'l' :: 'n' :: 's' :: '=' :: dq :: []) ++ Y)
    rw [List.dropWhile_cons, if_neg (by decide)]
  have hdrop : (w :: (wsp' ++ (xmlnsLit ++ (gap ++ dq :: rest)))).dropWhile isPySpace =
      xmlnsLit ++ (gap ++ dq :: rest) := by
    rw [List.dropWhile_cons, if_pos hw,
        dropWhile_append_all wsp' _ (fun c hc => hws c (List.mem_cons_of_mem w hc)),
        hstop]
  rw [hdrop, if_pos (List.isPrefixOf_iff_prefix.mpr ⟨gap ++ dq :: rest, rfl⟩)]
  have hdropped : (xmlnsLit ++ (gap ++ dq :: rest)).drop xmlnsLit.length =
      gap ++ dq :: rest := List.drop_left xmlnsLit (gap ++ dq :: rest)
  have hgapdw : (gap ++ dq :: rest).dropWhile (fun a => a ≠ dq) = dq :: rest := by
    rw [dropWhile_append_all gap _ (fun c hc => by simpa using hgap c hc),
        List.dropWhile_cons, if_neg (by simp)]
  simp only [hdropped, hgapdw]
  simp

/-- Whatever the scanner accepts really is a match of the regex, consuming
an `IsXmlnsMatch` prefix of the input. -/
theorem matchXmlnsAt_sound (l rest : List Char) (h : matchXmlnsAt l = some rest) :
    ∃ m, IsXmlnsMatch m ∧ l = m ++ rest := by
  cases l with
  | nil => simp [matchXmlnsAt] at h
  | cons c t =>
      rw [matchXmlnsAt] at h
      by_cases hc : isPySpace c
      · rw [if_pos hc] at h
        simp only [] at h
        by_cases hpre : xmlnsLit.isPrefixOf ((c :: t).dropWhile isPySpace)
        · rw [if_pos hpre] at h
          obtain ⟨u, hu⟩ := List.isPrefixOf_iff_prefix.mp hpre
          have hu' : ((c :: t).dropWhile isPySpace).drop xmlnsLit.length = u := by
            rw [← hu]
            exact List.drop_left xmlnsLit u
          rw [hu'] at h
          cases hdw : u.dropWhile (fun a => a ≠ dq) with
          | nil => rw [hdw] at h; simp at h
          | cons d tail =>
              rw [hdw] at h
              by_cases hd : d = dq
              · simp only [hd, if_pos] at h
                have htail : tail = rest := by simpa using h
                refine ⟨(c :: t).takeWhile isPySpace ++ xmlnsLit ++
                        u.takeWhile (fun a => a ≠ dq) ++ [dq], ?_, ?_⟩
                · refine ⟨(c :: t).takeWhile isPySpace, u.takeWhile (fun a => a ≠ dq),
                          ?_, ?_, ?_, rfl⟩
                  · rw [List.takeWhile_cons, if_pos hc]
                    simp
                  · exact fun a ha => List.mem_takeWhile_imp ha
                  · exact fun a ha => by simpa using List.mem_takeWhile_imp ha
                · have h1 : (c :: t) = (c :: t).takeWhile isPySpace ++
                      (c :: t).dropWhile isPySpace :=
                    (List.takeWhile_append_dropWhile isPySpace (c :: t)).symm
                  have h2 : u = u.takeWhile (fun a => a ≠ dq) ++ dq :: rest := by
                    conv_lhs => rw [← List.takeWhile_append_dropWhile
                      (fun a => a ≠ dq) u]
                    rw [hdw, hd, htail]
                  calc c :: t
                      = (c :: t).takeWhile isPySpace ++ (c :: t).dropWhile isPySpace := h1
                    _ = (c :: t).takeWhile isPySpace ++ (xmlnsLit ++ u) := by rw [hu]
                    _ = (c :: t).takeWhile isPySpace ++
                          (xmlnsLit ++ (u.takeWhile (fun a => a ≠ dq) ++ dq :: rest)) := by
                        rw [← h2]
                    _ = ((c :: t).takeWhile isPySpace ++ xmlnsLit ++
                          u.takeWhile (fun a => a ≠ dq) ++ [dq]) ++ rest := by simp
              · simp [hd] at h
        · rw [if_neg hpre] at h; simp at h
      · rw [if_neg hc] at h; simp at h

/-- `readViewport` with its `let` expanded, for rewriting. -/
theorem readViewport_def (vb : List Char) :
    readViewport vb =
      match (pySplit vb)[2]? with
      | none => .indexError
      | some p2 =>
          match pyFloat p2 with
          | none => .valueError
          | some wv =>
              match (pySplit vb)[3]? with
              | none => .indexError
              | some p3 =>
                  match pyFloat p3 with
                  | none => .valueError
                  | some hv => .ok wv hv := rfl

theorem readViewport_short (vb : List Char) (hlen : (pySplit vb).length < 4) :
    readViewport vb = .indexError ∨ readViewport vb = .valueError := by
  cases h2 : (pySplit vb)[2]? with
  | none => exact Or.inl (by simp [readViewport_def, h2])
  | some p2 =>
      cases hw : pyFloat p2 with
      | none => exact Or.inr (by simp [readViewport_def, h2, hw])
      | some w =>
          have h3 : (pySplit vb)[3]? = none := List.getElem?_eq_none (by omega)
          exact Or.inl (by simp [readViewport_def, h2, hw, h3])

theorem readViewport_short_index (vb : List Char) (hlen : (pySplit vb).length < 4)
    (hok : ((pySplit vb).length ≤ 2 ∨
      ∃ p2 w, (pySplit vb)[2]? = some p2 ∧ pyFloat p2 = some w)) :
    readViewport vb = .indexError := by
  rcases hok with hle | ⟨p2, w, h2, hw⟩
  · have h2 : (pySplit vb)[2]? = none := List.getElem?_eq_none (by omega)
    simp [readViewport_def, h2]
  · have h3 : (pySplit vb)[3]? = none := List.getElem?_eq_none (by omega)
    simp [readViewport_def, h2, hw, h3]

/-- After a successful argument check and viewBox search, `runMain` is
decided by `readViewport` until the subprocess stage. -/
theorem runMain_unfold_vb (e : Env) (vb : List Char)
    (hargs : e.args.length = 3)
    (hvb : findViewBox e.svgContent = some vb) :
    runMain e =
      match readViewport vb with
      | .indexError => .uncaughtIndex
      | .valueError => .uncaughtOther
      | .ok svg_w svg_h =>
          match e.extraction with
          | .error _ => .toolFail
          | .ok outTxt =>
              match e.xmlParse (stripXmlns outTxt) with
              | .error _ => .uncaughtOther
              | .ok none => .errExit noPageMsg
              | .ok (some page) =>
                  match page.width.bind pyFloat, page.height.bind pyFloat with
                  | some pdf_w, some pdf_h =>
                      if pdf_w = 0 ∨ pdf_h = 0 then .uncaughtOther
                      else
                        match buildWords? (svg_w / pdf_w) (svg_h / pdf_h) page.words with
                        | none => .uncaughtOther
                        | some words =>
                            .ok (injectStep e.svgContent
                                  (pyHtmlEscape (serializeWords words)))
                  | _, _ => .uncaughtOther := by
  rw [runMain, if_neg (by omega), hvb]

/-! ## Claim theorems -/

/-- C1: for every viewport width/height `W`,`H` and source page dimensions
`sW`,`sH`, every `WordBox` the word loop emits satisfies
`x = round(xMin·W/sW, 1)`, `y = round(yMin·H/sH, 1)`,
`w = round((xMax−xMin)·W/sW, 1)` and `h = round((yMax−yMin)·H/sH, 1)`,
where `xMin …` are the floats parsed from the source box's attributes
(the script computes `xMin·(W/sW)` and `xMax·(W/sW) − xMin·(W/sW)`, which
agree with the claim's formulas in exact arithmetic). -/
theorem c1_box_scaling (W H sW sH : ℚ) (ns : List WordNode) (out : List WordBox)
    (hbw : buildWords? (W / sW) (H / sH) ns = some out) :
    ∀ b ∈ out, ∃ n, n ∈ ns ∧ ∃ xm ym xM yM : ℚ,
      n.xMin.bind pyFloat = some xm ∧ n.yMin.bind pyFloat = some ym ∧
      n.xMax.bind pyFloat = some xM ∧ n.yMax.bind pyFloat = some yM ∧
      b.t = pyStrip n.text ∧
      b.x = pyRound1 (xm * W / sW) ∧ b.y = pyRound1 (ym * H / sH) ∧
      b.w = pyRound1 ((xM - xm) * W / sW) ∧ b.h = pyRound1 ((yM - ym) * H / sH) := by
  induction ns generalizing out with
  | nil =>
      simp only [buildWords?, Option.some.injEq] at hbw
      subst hbw
      simp
  | cons n ns ih =>
      rw [buildWords?] at hbw
      by_cases hblank : pyStrip n.text = []
      · rw [if_pos hblank] at hbw
        intro b hb
        obtain ⟨n', hn', rest⟩ := ih out hbw b hb
        exact ⟨n', List.mem_cons_of_mem _ hn', rest⟩
      · rw [if_neg hblank] at hbw
        cases hxm : n.xMin.bind pyFloat with
        | none => rw [hxm] at hbw; simp at hbw
        | some xm =>
        cases hym : n.yMin.bind pyFloat with
        | none => rw [hxm, hym] at hbw; simp at hbw
        | some ym =>
        cases hxM : n.xMax.bind pyFloat with
        | none => rw [hxm, hym, hxM] at hbw; simp at hbw
        | some xM =>
        cases hyM : n.yMax.bind pyFloat with
        | none => rw [hxm, hym, hxM, hyM] at hbw; simp at hbw
        | some yM =>
        rw [hxm, hym, hxM, hyM] at hbw
        simp only [Option.map_eq_some'] at hbw
        obtain ⟨rest, hrest, hout⟩ := hbw
        intro b hb
        rw [← hout] at hb
        rcases List.mem_cons.mp hb with hbhead | hbtail
        · subst hbhead
          refine ⟨n, List.mem_cons_self n ns, xm, ym, xM, yM,
                  hxm, hym, hxM, hyM, rfl, ?_, ?_, ?_, ?_⟩
          · exact congrArg pyRound1 (by ring)
          · exact congrArg pyRound1 (by ring)
          · exact congrArg pyRound1 (by ring)
          · exact congrArg pyRound1 (by ring)
        · obtain ⟨n', hn', rest'⟩ := ih rest hrest b hbtail
          exact ⟨n', List.mem_cons_of_mem _ hn', rest'⟩

/-- C4: blank-text word nodes are excluded and every other node
contributes exactly one entry carrying its trimmed text, in order, so the
output length equals the number of non-blank nodes; no entry is dropped
for any other reason (whenever the loop completes). -/
theorem c4_blank_filter (sx sy : ℚ) (ns : List WordNode) (out : List WordBox)
    (hbw : buildWords? sx sy ns = some out) :
    List.Forall₂ (fun n b => b.t = pyStrip n.text)
      (ns.filter (fun n => !(pyStrip n.text).isEmpty)) out ∧
    out.length = (ns.filter (fun n => !(pyStrip n.text).isEmpty)).length := by
  suffices h : List.Forall₂ (fun n b => b.t = pyStrip n.text)
      (ns.filter (fun n => !(pyStrip n.text).isEmpty)) out by
    exact ⟨h, h.length_eq.symm⟩
  induction ns generalizing out with
  | nil =>
      simp only [buildWords?, Option.some.injEq] at hbw
      subst hbw
      simp
  | cons n ns ih =>
      rw [buildWords?] at hbw
      by_cases hblank : pyStrip n.text = []
      · rw [if_pos hblank] at hbw
        simpa [List.filter_cons, hblank] using ih out hbw
      · rw [if_neg hblank] at hbw
        cases hxm : n.xMin.bind pyFloat with
        | none => rw [hxm] at hbw; simp at hbw
        | some xm =>
        cases hym : n.yMin.bind pyFloat with
        | none => rw [hxm, hym] at hbw; simp at hbw
        | some ym =>
        cases hxM : n.xMax.bind pyFloat with
        | none => rw [hxm, hym, hxM] at hbw; simp at hbw
        | some xM =>
        cases hyM : n.yMax.bind pyFloat with
        | none => rw [hxm, hym, hxM, hyM] at hbw; simp at hbw
        | some yM =>
        rw [hxm, hym, hxM, hyM] at hbw
        simp only [Option.map_eq_some'] at hbw
        obtain ⟨rest, hrest, hout⟩ := hbw
        subst hout
        have hkeep : (!(pyStrip n.text).isEmpty) = true := by
          simp [List.isEmpty_iff, hblank]
        simp only [List.filter_cons, hkeep, if_true]
        exact List.Forall₂.cons rfl (ih rest hrest)

/-- C8 (amended): the namespace strip runs with `count=1`, so before
parsing it deletes exactly the leftmost match of `\s+xmlns="[^"]*"` when
one exists (no position before it matches), and nothing otherwise; later
default-namespace declarations are left in place. -/
theorem c8_strips_first_decl_only (l : List Char) :
    (stripXmlns l = l ∧
      (List.range l.length).all (fun i => (matchXmlnsAt (l.drop i)).isNone) = true) ∨
    (∃ a m b, l = a ++ m ++ b ∧ IsXmlnsMatch m ∧ stripXmlns l = a ++ b ∧
      (List.range a.length).all (fun i => (matchXmlnsAt (l.drop i)).isNone) = true) := by
  induction l with
  | nil => exact Or.inl ⟨rfl, by simp⟩
  | cons c t ih =>
      cases hm : matchXmlnsAt (c :: t) with
      | some rest =>
          right
          obtain ⟨m, him, hlm⟩ := matchXmlnsAt_sound (c :: t) rest hm
          refine ⟨[], m, rest, by simpa using hlm, him, ?_, by simp⟩
          rw [stripXmlns, hm]
          simp
      | none =>
          rcases ih with ⟨hstrip, hall⟩ | ⟨a, m, b, hab, him, hstrip, hall⟩
          · left
            constructor
            · rw [stripXmlns, hm, hstrip]
            · rw [List.all_eq_true]
              intro i hi
              rw [List.mem_range] at hi
              match i with
              | 0 => simp [hm]
              | i + 1 =>
                  rw [List.drop_succ_cons]
                  exact List.all_eq_true.mp hall i
                    (List.mem_range.mpr (by simpa using hi))
          · right
            refine ⟨c :: a, m, b, by simp [hab], him, ?_, ?_⟩
            · rw [stripXmlns, hm, hstrip]
              simp
            · rw [List.all_eq_true]
              intro i hi
              rw [List.mem_range] at hi
              match i with
              | 0 => simp [hm]
              | i + 1 =>
                  rw [List.drop_succ_cons]
                  exact List.all_eq_true.mp hall i
                    (List.mem_range.mpr (by simpa using hi))

/-- C8 counterexample: the claim says *all* default-namespace declarations
are stripped, but on extraction output carrying two declarations the
`count=1` substitution leaves the second one in the text handed to the
parser. -/
theorem c8_counterexample :
    containsSub (stripXmlns xmlTwoDecls) xmlnsDeclB = true ∧
    stripXmlns xmlTwoDecls =
      "<r><s".toList ++ ' ' :: (xmlnsLit ++ 'b' :: dq :: "/></r>".toList) := by
  constructor
  · decide
  · decide

/-- C2 (amended): when the input contains exactly one occurrence of
`</svg>`, the output is byte-identical to the input except that the
injected element and a newline are spliced in immediately before that
occurrence, and deleting the inserted text reconstructs the input
byte-for-byte.  (In general the code's `str.replace` inserts before
*every* occurrence of `</svg>`, not only the first.) -/
theorem c2_roundtrip_single_close (svg payload : List Char)
    (hone : occCount svg closeTag = 1) :
    ∃ a b, svg = a ++ closeTag ++ b ∧
      injectStep svg payload = a ++ (injectString payload ++ [nl]) ++ closeTag ++ b := by
  obtain ⟨a, b, hab, hrep⟩ :=
    pyReplace_of_occCount_one closeTag (injectString payload ++ nl :: closeTag)
      svg (by decide) hone
  refine ⟨a, b, hab, ?_⟩
  rw [injectStep, hrep]
  simp

/-- C2 counterexample: on an input with two `</svg>` occurrences the code
splices the element before both, so the output differs from the
spec-described result (one insertion, before the first occurrence only). -/
theorem c2_counterexample :
    injectStep svgTwoClose [] ≠
      insertBeforeFirstCloseTag svgTwoClose (injectString [] ++ [nl]) := by
  decide

set_option maxRecDepth 12000 in
/-- C3: for viewport string `0 0 600 800`, a source page 300×400 and one
word `Hello` with box (10, 20, 60, 40), the viewport reads as 600×800,
the page dimensions parse as 300 and 400 (so sx = sy = 2), and the emitted
`WordBox` is exactly `t="Hello", x=20, y=40, w=100, h=40`. -/
theorem c3_hello_scenario :
    readViewport "0 0 600 800".toList = VpResult.ok 600 800 ∧
    pyFloat "300".toList = some 300 ∧ pyFloat "400".toList = some 400 ∧
    (600 : ℚ) / 300 = 2 ∧ (800 : ℚ) / 400 = 2 ∧
    buildWords? ((600 : ℚ) / 300) ((800 : ℚ) / 400) [helloNode] = some [helloBox] ∧
    helloBox = ⟨"Hello".toList, 20, 40, 100, 40⟩ := by
  with_unfolding_all decide

/-- C5: the injected attribute value HTML-unescapes back to the JSON
text it was escaped from (for every string, unescaping inverts the
escaping), and the JSON value this text denotes is an array listing, in
extraction order, one object per word with exactly the keys
`t, x, y, w, h` — `t` a string and the rest numbers. -/
theorem c5_attr_value_shape (ws : List WordBox) (s : List Char) :
    pyHtmlUnescape (pyHtmlEscape s) = s ∧
    pyHtmlUnescape (pyHtmlEscape (serializeWords ws)) = serializeWords ws ∧
    wordsJson ws = JVal.jarr (ws.map wordJson) ∧
    (ws.map wordJson).all isWordValue = true ∧
    (ws.map wordJson).length = ws.length := by
  refine ⟨unescape_escape s, unescape_escape _, rfl, ?_, by simp⟩
  rw [List.all_eq_true]
  intro v hv
  rw [List.mem_map] at hv
  obtain ⟨b, _, rfl⟩ := hv
  rfl

/-- C6: when the SVG text has no viewBox attribute, the run stops with
exit code 1, prints the diagnostic `ERROR: No viewBox in SVG` (which
mentions the missing viewBox) on the error stream, and writes no output
file. -/
theorem c6_missing_viewbox (e : Env)
    (hargs : e.args.length = 3)
    (hvb : findViewBox e.svgContent = none) :
    runMain e = .errExit noViewBoxMsg ∧
    exitCode (runMain e) = 1 ∧
    writesOutput (runMain e) = none ∧
    stderrOf (runMain e) = some noViewBoxMsg ∧
    containsSub noViewBoxMsg "viewBox".toList = true := by
  have h : runMain e = .errExit noViewBoxMsg := by
    rw [runMain, if_neg (by omega), hvb]
  exact ⟨h, by rw [h]; rfl, by rw [h]; rfl, by rw [h]; rfl, by decide⟩

/-- C7: whenever the positional argument count is not exactly three, the
run prints the usage line, exits with code 1, writes no output, and its
outcome depends only on the command line (no file is read and no
subprocess is spawned: any run with the same command line but different
file contents, extraction result or parse oracle behaves identically). -/
theorem c7_usage_on_bad_argc (e : Env) (hargs : e.args.length ≠ 3) :
    runMain e = .usage (usageMsg e.progName) ∧
    exitCode (runMain e) = 1 ∧
    writesOutput (runMain e) = none ∧
    ∀ e' : Env, e'.progName = e.progName → e'.args = e.args →
      runMain e' = runMain e := by
  have h : ∀ e'' : Env, e''.args.length ≠ 3 →
      runMain e'' = .usage (usageMsg e''.progName) := by
    intro e'' h''
    rw [runMain, if_pos (by omega)]
  refine ⟨h e hargs, by rw [h e hargs]; rfl, by rw [h e hargs]; rfl, ?_⟩
  intro e' hp ha
  rw [h e' (by rw [ha]; exact hargs), h e hargs, hp]

/-- C9: when the input SVG contains no occurrence of `</svg>` and every
other stage succeeds, the run still exits successfully (code 0) and
writes the output file with content identical to the input — the
injection silently does nothing instead of failing. -/
theorem c9_no_close_tag (e : Env) (vb outTxt : List Char) (page : PageData)
    (W H pw ph : ℚ) (ws : List WordBox)
    (hargs : e.args.length = 3)
    (hvb : findViewBox e.svgContent = some vb)
    (hrv : readViewport vb = .ok W H)
    (hex : e.extraction = .ok outTxt)
    (hpage : e.xmlParse (stripXmlns outTxt) = .ok (some page))
    (hpw : page.width.bind pyFloat = some pw)
    (hph : page.height.bind pyFloat = some ph)
    (hpwh0 : ¬(pw = 0 ∨ ph = 0))
    (hws : buildWords? (W / pw) (H / ph) page.words = some ws)
    (hnoc : occCount e.svgContent closeTag = 0) :
    runMain e = .ok e.svgContent ∧
    writesOutput (runMain e) = some e.svgContent ∧
    exitCode (runMain e) = 0 := by
  have h : runMain e = .ok e.svgContent := by
    rw [runMain_unfold_vb e vb hargs hvb]
    simp only [hrv, hex, hpage, hpw, hph, if_neg hpwh0, hws]
    rw [injectStep, pyReplace_of_occCount_zero _ _ _ hnoc]
  exact ⟨h, by rw [h]; rfl, by rw [h]; rfl⟩

/-- C10 (amended): a viewBox value with fewer than four
whitespace-separated tokens never reaches the exit-code-1 diagnostic
path; it fails with an unhandled error — an out-of-range indexing error,
except that with exactly three tokens whose third does not parse as a
number the conversion error comes first; and under the precondition that
a 3rd and 4th token exist and parse as numbers, the viewport read is
safe and yields them. -/
theorem c10_viewport_indexing (e : Env) (vb : List Char)
    (hargs : e.args.length = 3)
    (hvb : findViewBox e.svgContent = some vb) :
    ((pySplit vb).length < 4 →
      (runMain e = .uncaughtIndex ∨ runMain e = .uncaughtOther) ∧
      (∀ m, runMain e ≠ .errExit m) ∧
      (((pySplit vb).length ≤ 2 ∨
        ∃ p2 w, (pySplit vb)[2]? = some p2 ∧ pyFloat p2 = some w) →
          runMain e = .uncaughtIndex)) ∧
    (∀ p2 p3 w h, (pySplit vb)[2]? = some p2 → (pySplit vb)[3]? = some p3 →
      pyFloat p2 = some w → pyFloat p3 = some h →
        readViewport vb = .ok w h) := by
  constructor
  · intro hlen
    refine ⟨?_, ?_, ?_⟩
    · rcases readViewport_short vb hlen with hrv | hrv
      · exact Or.inl (by rw [runMain_unfold_vb e vb hargs hvb]; simp [hrv])
      · exact Or.inr (by rw [runMain_unfold_vb e vb hargs hvb]; simp [hrv])
    · intro m
      rcases readViewport_short vb hlen with hrv | hrv <;>
        · rw [runMain_unfold_vb e vb hargs hvb]
          simp [hrv]
    · intro hok
      have hrv := readViewport_short_index vb hlen hok
      rw [runMain_unfold_vb e vb hargs hvb]
      simp [hrv]
  · intro p2 p3 w h h2 h3 hw hh
    simp [readViewport_def, h2, h3, hw, hh]

/-! ## Witnesses -/

set_option maxRecDepth 12000 in
/-- Witness for C1 at the `Hello` scenario box. -/
theorem c1_box_scaling_witness :
    buildWords? ((600 : ℚ) / 300) ((800 : ℚ) / 400) [helloNode] = some [helloBox] ∧
    ∃ n, n ∈ [helloNode] ∧ ∃ xm ym xM yM : ℚ,
      n.xMin.bind pyFloat = some xm ∧ n.yMin.bind pyFloat = some ym ∧
      n.xMax.bind pyFloat = some xM ∧ n.yMax.bind pyFloat = some yM ∧
      helloBox.t = pyStrip n.text ∧
      helloBox.x = pyRound1 (xm * 600 / 300) ∧ helloBox.y = pyRound1 (ym * 800 / 400) ∧
      helloBox.w = pyRound1 ((xM - xm) * 600 / 300) ∧
      helloBox.h = pyRound1 ((yM - ym) * 800 / 400) :=
  ⟨by with_unfolding_all decide,
   c1_box_scaling 600 800 300 400 [helloNode] [helloBox]
     (by with_unfolding_all decide) helloBox (by simp)⟩

/-- Witness for the amended C2 on an SVG with exactly one closing tag. -/
theorem c2_roundtrip_single_close_witness :
    occCount svgOneClose closeTag = 1 ∧
    ∃ a b, svgOneClose = a ++ closeTag ++ b ∧
      injectStep svgOneClose [] = a ++ (injectString [] ++ [nl]) ++ closeTag ++ b :=
  ⟨by decide, c2_roundtrip_single_close svgOneClose [] (by decide)⟩

set_option maxRecDepth 12000 in
/-- Witness for C4 on a two-node list with one blank word. -/
theorem c4_blank_filter_witness :
    buildWords? 2 2 [helloNode, blankNode] = some [helloBox] ∧
    List.Forall₂ (fun n b => b.t = pyStrip n.text)
      ([helloNode, blankNode].filter (fun n => !(pyStrip n.text).isEmpty)) [helloBox] ∧
    ([helloBox] : List WordBox).length =
      ([helloNode, blankNode].filter (fun n => !(pyStrip n.text).isEmpty)).length :=
  ⟨by with_unfolding_all decide,
   (c4_blank_filter 2 2 [helloNode, blankNode] [helloBox]
     (by with_unfolding_all decide)).1,
   (c4_blank_filter 2 2 [helloNode, blankNode] [helloBox]
     (by with_unfolding_all decide)).2⟩

/-- Witness for C6 on a concrete SVG with no viewBox. -/
theorem c6_missing_viewbox_witness :
    envNoViewBox.args.length = 3 ∧
    findViewBox envNoViewBox.svgContent = none ∧
    runMain envNoViewBox = .errExit noViewBoxMsg ∧
    exitCode (runMain envNoViewBox) = 1 ∧
    writesOutput (runMain envNoViewBox) = none :=
  have h := c6_missing_viewbox envNoViewBox (by decide) (by decide)
  ⟨by decide, by decide, h.1, h.2.1, h.2.2.1⟩

/-- Witness for C7 on a one-argument command line. -/
theorem c7_usage_on_bad_argc_witness :
    envUsage.args.length ≠ 3 ∧
    runMain envUsage = .usage (usageMsg envUsage.progName) ∧
    exitCode (runMain envUsage) = 1 ∧
    writesOutput (runMain envUsage) = none :=
  have h := c7_usage_on_bad_argc envUsage (by decide)
  ⟨by decide, h.1, h.2.1, h.2.2.1⟩

set_option maxRecDepth 12000 in
/-- Witness for C9 on a run whose SVG has no `</svg>`. -/
theorem c9_no_close_tag_witness :
    occCount envOk.svgContent closeTag = 0 ∧
    runMain envOk = .ok svgNoClose ∧
    writesOutput (runMain envOk) = some svgNoClose ∧
    exitCode (runMain envOk) = 0 :=
  have h := c9_no_close_tag envOk "0 0 600 800".toList "x".toList pageHello
    600 800 300 400 [helloBox]
    (by decide) (by decide) (by with_unfolding_all decide) rfl rfl
    (by with_unfolding_all decide) (by with_unfolding_all decide)
    (by with_unfolding_all decide) (by with_unfolding_all decide) (by decide)
  ⟨by decide, h.1, h.2.1, h.2.2⟩

set_option maxRecDepth 12000 in
/-- Witness for the amended C10: a two-token viewBox value reaches the
uncaught `IndexError`, and a well-formed four-token value reads safely. -/
theorem c10_viewport_indexing_witness :
    (pySplit "0 0".toList).length < 4 ∧
    runMain envShortViewBox = .uncaughtIndex ∧
    readViewport "0 0 600 800".toList = .ok 600 800 :=
  have h := c10_viewport_indexing envShortViewBox "0 0".toList (by decide) (by decide)
  have h2 := c10_viewport_indexing envOk "0 0 600 800".toList (by decide) (by decide)
  ⟨by decide,
   (h.1 (by decide)).2.2 (Or.inl (by decide)),
   h2.2 "600".toList "800".toList 600 800 (by decide) (by decide)
     (by with_unfolding_all decide) (by with_unfolding_all decide)⟩

set_option maxRecDepth 12000 in
/-- C10 counterexample: a three-token viewBox value whose third token is
not numeric (`0 0 zz`) has fewer than four tokens yet fails with the
numeric-conversion error, not the out-of-range indexing error the claim
names. -/
theorem c10_counterexample :
    (pySplit "0 0 zz".toList).length < 4 ∧
    runMain envBadTokenViewBox = .uncaughtOther ∧
    runMain envBadTokenViewBox ≠ .uncaughtIndex := by
  with_unfolding_all decide

end InjectText
